import Mathlib

set_option maxHeartbeats 1000000
set_option maxRecDepth 8192

/-!
Verification of the oura-mcp-server repository against its specification.

The repository contains two variants of an MCP server exposing Oura Ring
sleep data: a stdio server (`server.py`, class `OuraMCPServer`) and a
FastMCP server (`src/oura_server/server.py`, `create_server`). This file
embeds the pure logic of both variants: OAuth2 authorization-URL
construction (`urllib.parse.urlencode` / `parse_qsl` at the byte level),
the tool handlers as explicit state-passing functions, the sort-and-average
computation over sleep records, and a token store modelled from the spec
(the repository has no token-store code).

Strings sent through URL encoding are modelled as lists of byte values
(`List Nat` with entries `< 256`), matching Python's UTF-8 encode step
inside `urllib.parse.quote_plus`.
-/

/-! ## Byte-level strings and URL encoding (`urllib.parse`) -/

/-- Bytes of an ASCII Lean string literal (code points, used for fixed text). -/
def strBytes (s : String) : List Nat := s.toList.map Char.toNat

/-- Render a byte list back to a string (for embedding URLs in messages). -/
def bytesToStr (l : List Nat) : String := String.mk (l.map Char.ofNat)

/-- Python `urllib.parse` "always safe" bytes: ASCII letters, digits, `_.-~`. -/
def isSafeByte (b : Nat) : Bool :=
  (65 ≤ b && b ≤ 90) || (97 ≤ b && b ≤ 122) || (48 ≤ b && b ≤ 57) ||
    b == 95 || b == 46 || b == 45 || b == 126

/-- Uppercase hex digit byte for a nibble, as produced by `quote_plus`. -/
def hexDigit (n : Nat) : Nat := if n < 10 then 48 + n else 55 + n

/-- Value of a hex digit byte (0 for non-hex input, as a total model). -/
def hexVal (c : Nat) : Nat :=
  if 48 ≤ c ∧ c ≤ 57 then c - 48
  else if 65 ≤ c ∧ c ≤ 70 then c - 55
  else if 97 ≤ c ∧ c ≤ 102 then c - 87
  else 0

/-- `urllib.parse.quote_plus` with `safe=''` on a byte sequence: safe bytes
pass through, space becomes `+` (43), everything else becomes `%XX`. -/
def quote_plus : List Nat → List Nat
  | [] => []
  | b :: bs =>
    (if isSafeByte b then [b]
     else if b = 32 then [43]
     else [37, hexDigit (b / 16), hexDigit (b % 16)]) ++ quote_plus bs

/-- `urllib.parse.unquote_plus` on a byte sequence: `%XX` decodes to the
byte, `+` decodes to space, other bytes pass through. -/
def unquote_plus : List Nat → List Nat
  | [] => []
  | 37 :: h1 :: h2 :: rest => (16 * hexVal h1 + hexVal h2) :: unquote_plus rest
  | 43 :: rest => 32 :: unquote_plus rest
  | c :: rest => c :: unquote_plus rest

theorem unquote_plus_nil : unquote_plus [] = [] := rfl

theorem unquote_plus_pct (h1 h2 : Nat) (rest : List Nat) :
    unquote_plus (37 :: h1 :: h2 :: rest) =
      (16 * hexVal h1 + hexVal h2) :: unquote_plus rest := rfl

theorem unquote_plus_space (rest : List Nat) :
    unquote_plus (43 :: rest) = 32 :: unquote_plus rest := rfl

theorem unquote_plus_other {c : Nat} (h37 : c ≠ 37) (h43 : c ≠ 43)
    (rest : List Nat) : unquote_plus (c :: rest) = c :: unquote_plus rest := by
  match rest with
  | [] => simp [unquote_plus, h37, h43]
  | [h1] => simp [unquote_plus, h37, h43]
  | h1 :: h2 :: r => simp [unquote_plus, h37, h43]

/-- Split a byte list at the first occurrence of `sep` (like Python
`str.split(sep, 1)`); when `sep` is absent the second component is empty. -/
def splitFirst (sep : Nat) : List Nat → List Nat × List Nat
  | [] => ([], [])
  | c :: rest =>
    if c = sep then ([], rest)
    else
      let p := splitFirst sep rest
      (c :: p.1, p.2)

/-- Split a byte list on every `&` (38), like the field split in
`urllib.parse.parse_qsl`. -/
def splitAmp : List Nat → List (List Nat)
  | [] => [[]]
  | c :: rest =>
    if c = 38 then [] :: splitAmp rest
    else
      match splitAmp rest with
      | s :: ss => (c :: s) :: ss
      | [] => [[c]]

/-- One `key=value` field of `urllib.parse.urlencode` output. -/
def encodePair (p : List Nat × List Nat) : List Nat :=
  quote_plus p.1 ++ 61 :: quote_plus p.2

/-- `urllib.parse.urlencode`: `key=value` fields joined by `&`. -/
def urlencode : List (List Nat × List Nat) → List Nat
  | [] => []
  | [p] => encodePair p
  | p :: ps => encodePair p ++ 38 :: urlencode ps

/-- `urllib.parse.parse_qsl`: split on `&`, split each field at the first
`=`, percent-decode both sides. -/
def parse_qsl (q : List Nat) : List (List Nat × List Nat) :=
  (splitAmp q).map fun f =>
    (unquote_plus (splitFirst 61 f).1, unquote_plus (splitFirst 61 f).2)

/-! ## Authorization URL (`OuraAuth.get_authorization_url` / `get_auth_url`) -/

/-- The fixed provider endpoint, `self.authorize_url` in `server.py`. -/
def authorize_url : List Nat := strBytes "https://cloud.ouraring.com/oauth/authorize"

/-- Number of random bytes passed to `secrets.token_urlsafe` when the state
token is generated (`secrets.token_urlsafe(32)` in both variants). -/
def token_urlsafe_entropy_bytes : Nat := 32

/-- `OuraAuth.get_authorization_url` / `get_auth_url`: the fixed endpoint,
`?`, and the urlencoded parameters in source order. The freshly generated
`state` token is passed in explicitly (randomness is external input). -/
def get_authorization_url (client_id redirect_uri scope state : List Nat) : List Nat :=
  authorize_url ++ 63 :: urlencode
    [(strBytes "response_type", strBytes "code"),
     (strBytes "client_id", client_id),
     (strBytes "redirect_uri", redirect_uri),
     (strBytes "scope", scope),
     (strBytes "state", state)]

/-- Part of a URL before the first `?`. -/
def urlBase (u : List Nat) : List Nat := (splitFirst 63 u).1

/-- Part of a URL after the first `?`. -/
def urlQuery (u : List Nat) : List Nat := (splitFirst 63 u).2

/-! ## Encoding lemmas -/

theorem hexVal_hexDigit : ∀ n < 16, hexVal (hexDigit n) = n := by decide

theorem hexDigit_ne : ∀ n < 16,
    hexDigit n ≠ 35 ∧ hexDigit n ≠ 37 ∧ hexDigit n ≠ 38 ∧
      hexDigit n ≠ 61 ∧ hexDigit n ≠ 63 := by decide

theorem isSafeByte_ne {b : Nat} (h : isSafeByte b = true) :
    b ≠ 32 ∧ b ≠ 35 ∧ b ≠ 37 ∧ b ≠ 38 ∧ b ≠ 43 ∧ b ≠ 61 ∧ b ≠ 63 := by
  simp only [isSafeByte, Bool.or_eq_true, Bool.and_eq_true, decide_eq_true_eq,
    beq_iff_eq] at h
  omega

/-- Every byte of `quote_plus` output avoids the structural delimiters
`#`, `&`, `=`, `?`. -/
theorem mem_quote_plus {bs : List Nat} (hbs : ∀ x ∈ bs, x < 256) {b : Nat}
    (hb : b ∈ quote_plus bs) : b ≠ 35 ∧ b ≠ 38 ∧ b ≠ 61 ∧ b ≠ 63 := by
  induction bs with
  | nil => simp [quote_plus] at hb
  | cons c cs ih =>
    have hc : c < 256 := hbs c (by simp)
    have hcs : ∀ x ∈ cs, x < 256 := fun x hx => hbs x (List.mem_cons_of_mem _ hx)
    simp only [quote_plus, List.mem_append] at hb
    rcases hb with hb | hb
    · by_cases hsafe : isSafeByte c
      · rw [if_pos hsafe] at hb
        simp only [List.mem_singleton] at hb
        subst hb
        have := isSafeByte_ne hsafe
        tauto
      · rw [if_neg hsafe] at hb
        by_cases h32 : c = 32
        · rw [if_pos h32] at hb
          simp only [List.mem_singleton] at hb
          omega
        · rw [if_neg h32] at hb
          have h1 := hexDigit_ne (c / 16) (by omega)
          have h2 := hexDigit_ne (c % 16) (by omega)
          simp only [List.mem_cons, List.mem_singleton, List.not_mem_nil, or_false] at hb
          rcases hb with rfl | rfl | rfl
          · omega
          · tauto
          · tauto
    · exact ih hcs hb

/-- Percent-decoding inverts percent-encoding on byte sequences. -/
theorem unquote_quote {bs : List Nat} (h : ∀ x ∈ bs, x < 256) :
    unquote_plus (quote_plus bs) = bs := by
  induction bs with
  | nil => exact unquote_plus_nil
  | cons c cs ih =>
    have hc : c < 256 := h c (by simp)
    have hcs : ∀ x ∈ cs, x < 256 := fun x hx => h x (List.mem_cons_of_mem _ hx)
    simp only [quote_plus]
    by_cases hsafe : isSafeByte c
    · rw [if_pos hsafe]
      have hne := isSafeByte_ne hsafe
      rw [List.singleton_append, unquote_plus_other hne.2.2.1 hne.2.2.2.2.1, ih hcs]
    · rw [if_neg hsafe]
      by_cases h32 : c = 32
      · subst h32
        rw [if_pos rfl, List.singleton_append, unquote_plus_space, ih hcs]
      · rw [if_neg h32]
        simp only [List.cons_append, List.nil_append]
        rw [unquote_plus_pct, ih hcs,
          hexVal_hexDigit (c / 16) (by omega), hexVal_hexDigit (c % 16) (by omega)]
        congr 1
        omega

theorem splitFirst_append {sep : Nat} {k : List Nat} (hk : sep ∉ k)
    (v : List Nat) : splitFirst sep (k ++ sep :: v) = (k, v) := by
  induction k with
  | nil => simp [splitFirst]
  | cons c cs ih =>
    have hc : c ≠ sep := fun h => hk (h ▸ List.mem_cons_self c cs)
    have hcs : sep ∉ cs := fun h => hk (List.mem_cons_of_mem _ h)
    simp only [List.cons_append, splitFirst, if_neg hc, List.append_eq, ih hcs]

theorem splitFirst_no_sep {sep : Nat} {k : List Nat} (hk : sep ∉ k) :
    splitFirst sep k = (k, []) := by
  induction k with
  | nil => rfl
  | cons c cs ih =>
    have hc : c ≠ sep := fun h => hk (h ▸ List.mem_cons_self c cs)
    have hcs : sep ∉ cs := fun h => hk (List.mem_cons_of_mem _ h)
    simp only [splitFirst, if_neg hc, ih hcs]

theorem splitAmp_no_amp {xs : List Nat} (h : 38 ∉ xs) : splitAmp xs = [xs] := by
  induction xs with
  | nil => rfl
  | cons c cs ih =>
    have hc : c ≠ 38 := fun hh => h (hh ▸ List.mem_cons_self c cs)
    have hcs : 38 ∉ cs := fun hh => h (List.mem_cons_of_mem _ hh)
    simp only [splitAmp, if_neg hc, ih hcs]

theorem splitAmp_append {xs : List Nat} (h : 38 ∉ xs) (rest : List Nat) :
    splitAmp (xs ++ 38 :: rest) = xs :: splitAmp rest := by
  induction xs with
  | nil => simp [splitAmp]
  | cons c cs ih =>
    have hc : c ≠ 38 := fun hh => h (hh ▸ List.mem_cons_self c cs)
    have hcs : 38 ∉ cs := fun hh => h (List.mem_cons_of_mem _ hh)
    simp only [List.cons_append, splitAmp, if_neg hc, List.append_eq, ih hcs]

/-- A bound predicate for byte lists: all entries are bytes. -/
def allBytes (l : List Nat) : Prop := ∀ x ∈ l, x < 256

instance (l : List Nat) : Decidable (allBytes l) :=
  inferInstanceAs (Decidable (∀ x ∈ l, x < 256))

theorem mem_encodePair {p : List Nat × List Nat} (h1 : allBytes p.1)
    (h2 : allBytes p.2) {b : Nat} (hb : b ∈ encodePair p) :
    b ≠ 35 ∧ b ≠ 38 ∧ b ≠ 63 := by
  simp only [encodePair, List.mem_append, List.mem_cons] at hb
  rcases hb with hb | rfl | hb
  · have := mem_quote_plus h1 hb
    tauto
  · omega
  · have := mem_quote_plus h2 hb
    tauto

/-- Decoding one encoded `key=value` field recovers the pair. -/
theorem parse_field {k v : List Nat} (hk : allBytes k) (hv : allBytes v) :
    (unquote_plus (splitFirst 61 (encodePair (k, v))).1,
     unquote_plus (splitFirst 61 (encodePair (k, v))).2) = (k, v) := by
  have h61 : 61 ∉ quote_plus k := fun h => ((mem_quote_plus hk h).2.2.1) rfl
  unfold encodePair
  rw [splitFirst_append h61]
  simp [unquote_quote hk, unquote_quote hv]

/-- `parse_qsl` is a left inverse of `urlencode` on nonempty parameter
lists of byte strings. -/
theorem parse_urlencode : ∀ ps : List (List Nat × List Nat),
    (∀ p ∈ ps, allBytes p.1 ∧ allBytes p.2) → ps ≠ [] →
    parse_qsl (urlencode ps) = ps := by
  intro ps
  induction ps with
  | nil => intro _ hne; exact absurd rfl hne
  | cons p ps ih =>
    intro hb _
    have hp := hb p (List.mem_cons_self p ps)
    have hfield : ∀ b ∈ encodePair p, b ≠ 38 :=
      fun b hbm => (mem_encodePair hp.1 hp.2 hbm).2.1
    have hfield' : (38 : Nat) ∉ encodePair p := fun hmem => hfield 38 hmem rfl
    cases ps with
    | nil =>
      simp only [urlencode, parse_qsl, splitAmp_no_amp hfield', List.map_cons,
        List.map_nil]
      have := parse_field (k := p.1) (v := p.2) hp.1 hp.2
      simp only [Prod.mk.injEq] at this
      simp [this.1, this.2]
    | cons q qs =>
      have hbq : ∀ r ∈ q :: qs, allBytes r.1 ∧ allBytes r.2 :=
        fun r hr => hb r (List.mem_cons_of_mem _ hr)
      have ihq := ih hbq (by simp)
      simp only [urlencode, parse_qsl, splitAmp_append hfield', List.map_cons]
      simp only [parse_qsl] at ihq
      rw [ihq]
      have := parse_field (k := p.1) (v := p.2) hp.1 hp.2
      simp only [Prod.mk.injEq] at this
      simp [this.1, this.2]

theorem mem_urlencode : ∀ {ps : List (List Nat × List Nat)},
    (∀ p ∈ ps, allBytes p.1 ∧ allBytes p.2) → ∀ {b : Nat}, b ∈ urlencode ps →
    b ≠ 35 ∧ b ≠ 63 := by
  intro ps
  induction ps with
  | nil => intro _ b hb; simp [urlencode] at hb
  | cons p ps ih =>
    intro hall b hb
    have hp := hall p (List.mem_cons_self p ps)
    cases ps with
    | nil =>
      simp only [urlencode] at hb
      have := mem_encodePair hp.1 hp.2 hb
      tauto
    | cons q qs =>
      simp only [urlencode, List.mem_append, List.mem_cons] at hb
      rcases hb with hb | rfl | hb
      · have := mem_encodePair hp.1 hp.2 hb
        tauto
      · omega
      · exact ih (fun r hr => hall r (List.mem_cons_of_mem _ hr)) hb

theorem qm_not_mem_authorize_url : (63 : Nat) ∉ authorize_url := by decide

/-- The five OAuth2 parameters of the authorization URL, in source order. -/
def authParams (client_id redirect_uri scope state : List Nat) :
    List (List Nat × List Nat) :=
  [(strBytes "response_type", strBytes "code"),
   (strBytes "client_id", client_id),
   (strBytes "redirect_uri", redirect_uri),
   (strBytes "scope", scope),
   (strBytes "state", state)]

theorem authParams_bytes {client_id redirect_uri scope state : List Nat}
    (hc : allBytes client_id) (hr : allBytes redirect_uri)
    (hs : allBytes scope) (hst : allBytes state) :
    ∀ p ∈ authParams client_id redirect_uri scope state,
      allBytes p.1 ∧ allBytes p.2 := by
  intro p hp
  simp only [authParams, List.mem_cons, List.not_mem_nil, or_false] at hp
  have hkeys : allBytes (strBytes "response_type") ∧ allBytes (strBytes "code") ∧
      allBytes (strBytes "client_id") ∧ allBytes (strBytes "redirect_uri") ∧
      allBytes (strBytes "scope") ∧ allBytes (strBytes "state") := by
    refine ⟨?_, ?_, ?_, ?_, ?_, ?_⟩ <;> decide
  rcases hp with rfl | rfl | rfl | rfl | rfl <;>
    simp_all

/--
C1. `OuraAuth.get_authorization_url` / `get_auth_url`: the resulting URL is
the fixed endpoint `https://cloud.ouraring.com/oauth/authorize` followed by
a query string that `urllib.parse.parse_qsl` decodes back to exactly
`response_type=code, client_id, redirect_uri, scope, state` with the
supplied values; the state token is generated by `secrets.token_urlsafe`
with 32 bytes of entropy, and two calls drawing distinct state tokens
produce distinct URLs.
-/
theorem auth_url_roundtrip (client_id redirect_uri scope state state2 : List Nat)
    (hc : allBytes client_id) (hr : allBytes redirect_uri)
    (hs : allBytes scope) (hst : allBytes state) (hst2 : allBytes state2) :
    urlBase (get_authorization_url client_id redirect_uri scope state) =
      authorize_url ∧
    parse_qsl (urlQuery (get_authorization_url client_id redirect_uri scope state)) =
      authParams client_id redirect_uri scope state ∧
    32 ≤ token_urlsafe_entropy_bytes ∧
    (state ≠ state2 →
      get_authorization_url client_id redirect_uri scope state ≠
        get_authorization_url client_id redirect_uri scope state2) := by
  have hbytes := authParams_bytes hc hr hs hst
  have hbytes2 := authParams_bytes hc hr hs hst2
  have hsplit : splitFirst 63 (get_authorization_url client_id redirect_uri scope state) =
      (authorize_url, urlencode (authParams client_id redirect_uri scope state)) := by
    unfold get_authorization_url
    exact splitFirst_append qm_not_mem_authorize_url _
  have hsplit2 : splitFirst 63 (get_authorization_url client_id redirect_uri scope state2) =
      (authorize_url, urlencode (authParams client_id redirect_uri scope state2)) := by
    unfold get_authorization_url
    exact splitFirst_append qm_not_mem_authorize_url _
  have hparse : parse_qsl (urlQuery (get_authorization_url client_id redirect_uri scope state)) =
      authParams client_id redirect_uri scope state := by
    rw [urlQuery, hsplit]
    exact parse_urlencode _ hbytes (by simp [authParams])
  refine ⟨?_, hparse, by norm_num [token_urlsafe_entropy_bytes], ?_⟩
  · rw [urlBase, hsplit]
  · intro hne heq
    have hparse2 : parse_qsl (urlQuery (get_authorization_url client_id redirect_uri scope state2)) =
        authParams client_id redirect_uri scope state2 := by
      rw [urlQuery, hsplit2]
      exact parse_urlencode _ hbytes2 (by simp [authParams])
    rw [heq, hparse2] at hparse
    simp only [authParams, List.cons.injEq, Prod.mk.injEq] at hparse
    have hss : state2 = state := by tauto
    exact hne hss.symm

/-- Witness for C1 at the spec's example configuration: `client_id="abc"`,
the default redirect URI, scope `"personal daily"`, and two distinct
concrete state tokens. -/
theorem auth_url_roundtrip_witness :
    urlBase (get_authorization_url (strBytes "abc")
      (strBytes "http://localhost:8080/callback") (strBytes "personal daily")
      (strBytes "stateA")) = authorize_url ∧
    parse_qsl (urlQuery (get_authorization_url (strBytes "abc")
      (strBytes "http://localhost:8080/callback") (strBytes "personal daily")
      (strBytes "stateA"))) =
      authParams (strBytes "abc") (strBytes "http://localhost:8080/callback")
        (strBytes "personal daily") (strBytes "stateA") ∧
    32 ≤ token_urlsafe_entropy_bytes ∧
    (strBytes "stateA" ≠ strBytes "stateB" →
      get_authorization_url (strBytes "abc")
        (strBytes "http://localhost:8080/callback") (strBytes "personal daily")
        (strBytes "stateA") ≠
      get_authorization_url (strBytes "abc")
        (strBytes "http://localhost:8080/callback") (strBytes "personal daily")
        (strBytes "stateB")) :=
  auth_url_roundtrip (strBytes "abc") (strBytes "http://localhost:8080/callback")
    (strBytes "personal daily") (strBytes "stateA") (strBytes "stateB")
    (by decide) (by decide) (by decide) (by decide) (by decide)

/-! ## Sleep records (`SleepRecord` fields used by the handlers) -/

/-- One record of the upstream `{data: [...]}` response. `none` models a
missing or null JSON field, as seen by `record.get(...)`. -/
structure SleepRecord where
  day : Option String := none
  score : Option Int := none
  efficiency : Option Int := none
  total : Option Int := none
  rem : Option Int := none
  deep : Option Int := none
  light : Option Int := none
  bedtime_start : Option String := none
  bedtime_end : Option String := none
  latency : Option Int := none
  time_in_bed : Option Int := none
deriving DecidableEq

/-- Sort key `x.get("day", "")` used by `sleep_records.sort`. -/
def dayKey (r : SleepRecord) : String := r.day.getD ""

/-- The descending comparison underlying
`sleep_records.sort(key=lambda x: x.get("day", ""), reverse=True)`. -/
def daySortRel (a b : SleepRecord) : Prop := dayKey b ≤ dayKey a

instance : DecidableRel daySortRel :=
  fun a b => inferInstanceAs (Decidable (dayKey b ≤ dayKey a))

instance : IsTotal SleepRecord daySortRel :=
  ⟨fun a b => le_total (dayKey b) (dayKey a)⟩

instance : IsTrans SleepRecord daySortRel :=
  ⟨fun _ _ _ h1 h2 => le_trans h2 h1⟩

/-- `list.sort(key=..., reverse=True)`: Python's sort is stable and, with
`reverse=True`, keeps the original order of records with equal keys; the
stable descending insertion sort has exactly this observable behaviour. -/
def sortByDayDesc (rs : List SleepRecord) : List SleepRecord :=
  List.insertionSort daySortRel rs

/-! ## Average score: mean of non-null scores, one decimal place -/

/-- `[record.get("score") for record in sleep_records if ... is not None]`. -/
def sleepScores (rs : List SleepRecord) : List Int :=
  rs.filterMap SleepRecord.score

/-- Round `a / n` to the nearest integer, ties to even, as Python's float
formatting does for `f"{x:.1f}"` (applied to `10 * sum` over `count`). -/
def roundHalfEvenDiv (a : Int) (n : Nat) : Int :=
  if 2 * (a % (n : Int)) < n then a / n
  else if (n : Int) < 2 * (a % (n : Int)) then a / n + 1
  else if (a / (n : Int)) % 2 = 0 then a / n else a / n + 1

/-- Digits of a value counted in tenths, e.g. `200 ↦ "20.0"`. -/
def formatTenthsNat (m : Nat) : String :=
  toString (m / 10) ++ "." ++ toString (m % 10)

/-- Fixed-point rendering with one decimal, on integer tenths. -/
def formatTenths (r : Int) : String :=
  if r < 0 then "-" ++ formatTenthsNat r.natAbs else formatTenthsNat r.toNat

/-- `f"{avg_score:.1f}"` for `avg_score = sum(scores)/len(scores)`. -/
def formatAvgScore (scores : List Int) : String :=
  formatTenths (roundHalfEvenDiv (10 * scores.sum) scores.length)

/-- The optional `"\nAverage Sleep Score: ..."` suffix of the week report:
present exactly when some record has a non-null score. -/
def weekAverageLine (rs : List SleepRecord) : Option String :=
  let scores := sleepScores rs
  if scores.isEmpty then none
  else some ("\nAverage Sleep Score: " ++ formatAvgScore scores)

/-- Display of an optional numeric field with default `"N/A"`, as in
`record.get("score", "N/A")` interpolated into the week report line. -/
def showIntNA : Option Int → String
  | none => "N/A"
  | some i => toString i

/-- One line of the week report:
`f"{date}: Score {score}, Efficiency {efficiency}%, Total Sleep {total_sleep}s\n"`. -/
def weekRecordLine (r : SleepRecord) : String :=
  r.day.getD "Unknown" ++ ": Score " ++ showIntNA r.score ++ ", Efficiency " ++
    showIntNA r.efficiency ++ "%, Total Sleep " ++ showIntNA r.total ++ "s\n"

/-! ## The stdio server (`server.py`, class `OuraMCPServer`) -/

/-- `OuraAuth.__init__` configuration (the URL fields are fixed constants). -/
structure OuraAuth where
  client_id : String
  client_secret : String
  redirect_uri : String
deriving DecidableEq

/-- `OuraClient.__init__`: just the bearer token. -/
structure OuraClient where
  access_token : String
deriving DecidableEq

/-- The mutable fields of `OuraMCPServer`: `self.auth` and `self.client`,
both `None` at construction. -/
structure ServerState where
  auth : Option OuraAuth := none
  client : Option OuraClient := none
deriving DecidableEq

/-- `OuraMCPServer.__init__`: no auth, no client. -/
def initialState : ServerState := {}

/-- An outbound HTTP request issued by a handler (method and URL). -/
structure HttpRequest where
  method : String
  url : String
deriving DecidableEq

/-- Result of one tool invocation: the new server state, the text returned
to the caller, and the outbound HTTP requests the handler issued. -/
structure ToolStep where
  state : ServerState
  text : String
  requests : List HttpRequest
deriving DecidableEq

/-- `os.environ` as seen by `_handle_auth` (`None` models an unset var). -/
structure Env where
  OURA_CLIENT_ID : Option String := none
  OURA_CLIENT_SECRET : Option String := none
  OURA_REDIRECT_URI : Option String := none

/-- Python falsiness of `os.getenv(...)`: unset or empty string. -/
def optFalsy : Option String → Bool
  | none => true
  | some s => s == ""

def token_url : String := "https://api.ouraring.com/oauth/token"

def configErrorText : String :=
  "Error: Oura API credentials not configured. Please set OURA_CLIENT_ID and OURA_CLIENT_SECRET environment variables."

/-- The text built around `get_authorization_url` by `_handle_auth`. -/
def authUrlText (auth : OuraAuth) (scope state : String) : String :=
  "Please visit this URL to authorize the application:\n" ++
    bytesToStr (get_authorization_url (strBytes auth.client_id)
      (strBytes auth.redirect_uri) (strBytes scope) (strBytes state)) ++
    "\n\nAfter authorization, use the 'oura_exchange_code' tool with the code from the callback URL."

/-- `OuraMCPServer._handle_auth`: lazily reads credentials from the
environment; reports a configuration error (and performs nothing else)
when `OURA_CLIENT_ID` or `OURA_CLIENT_SECRET` is unset or empty. The fresh
random `state` token is passed in explicitly. -/
def handle_auth (env : Env) (st : ServerState) (scope state : String) : ToolStep :=
  match st.auth with
  | some auth => { state := st, text := authUrlText auth scope state, requests := [] }
  | none =>
    if optFalsy env.OURA_CLIENT_ID || optFalsy env.OURA_CLIENT_SECRET then
      { state := st, text := configErrorText, requests := [] }
    else
      let auth : OuraAuth :=
        { client_id := env.OURA_CLIENT_ID.getD ""
          client_secret := env.OURA_CLIENT_SECRET.getD ""
          redirect_uri := env.OURA_REDIRECT_URI.getD "http://localhost:8080/callback" }
      { state := { st with auth := some auth }
        text := authUrlText auth scope state
        requests := [] }

/-- The provider's response to the token POST, as the handler reads it:
HTTP status plus the optional JSON fields it accesses. -/
structure TokenResponse where
  status : Nat
  access_token : Option String := none
  expires_in : Option Int := none
  token_type : Option String := none

/-- `str(httpx.HTTPStatusError)` carries the upstream status (abstracted
to the status code and failing URL). -/
def httpStatusErrorText (status : Nat) : String :=
  "Client error '" ++ toString status ++ "' for url '" ++ token_url ++ "'"

/-- `str(KeyError(k))` is the quoted key. -/
def keyErrorText (k : String) : String := "'" ++ k ++ "'"

def exchangeErrorPrefix : String := "Error exchanging code for token: "

/-- `OuraMCPServer._handle_exchange_code`: requires `oura_auth` first; on a
non-2xx provider status `raise_for_status` throws, on a 2xx body without
`access_token` the subscript throws; both are caught by the
`except Exception` and rendered as an error text. When `access_token` is
present the client is replaced before `expires_in` is read, so a missing
`expires_in` still leaves the new client installed. -/
def handle_exchange_code (st : ServerState) (code : String)
    (resp : TokenResponse) : ToolStep :=
  match st.auth with
  | none =>
    { state := st
      text := "Error: Must call 'oura_auth' first to initialize authentication."
      requests := [] }
  | some _ =>
    let req : HttpRequest := { method := "POST", url := token_url }
    if ¬(200 ≤ resp.status ∧ resp.status ≤ 299) then
      { state := st
        text := exchangeErrorPrefix ++ httpStatusErrorText resp.status
        requests := [req] }
    else
      match resp.access_token with
      | none =>
        { state := st
          text := exchangeErrorPrefix ++ keyErrorText "access_token"
          requests := [req] }
      | some tok =>
        match resp.expires_in with
        | none =>
          { state := { st with client := some { access_token := tok } }
            text := exchangeErrorPrefix ++ keyErrorText "expires_in"
            requests := [req] }
        | some e =>
          { state := { st with client := some { access_token := tok } }
            text := "Successfully authenticated! Access token expires in " ++
              toString e ++ " seconds.\n\nYou can now use the sleep data tools."
            requests := [req] }

/-- `OuraMCPServer._handle_set_token`: installs `OuraClient(access_token)`
unconditionally and reports success; no request is made, nothing is
validated or written to disk. -/
def handle_set_token (st : ServerState) (access_token : String) : ToolStep :=
  { state := { st with client := some { access_token := access_token } }
    text := "Access token set successfully. You can now use the sleep data tools."
    requests := [] }

/-- Outcome of the sleep-data GET: either a 2xx JSON body whose `data`
field may be absent (`none`) or a list, or an exception text from
`raise_for_status` / the HTTP client. -/
inductive HttpOutcome where
  | success (data : Option (List SleepRecord))
  | failure (emsg : String)

def noClientErrorText : String :=
  "Error: Must authenticate first. Use 'oura_auth' and 'oura_exchange_code' tools, or 'oura_set_token' to set an access token."

/-- Display of an optional value via Python `str`, where `None` prints as
`"None"` (the `.get(...)` calls in `_handle_last_night_sleep` have no
default). -/
def showIntNone : Option Int → String
  | none => "None"
  | some i => toString i

def showStrNone : Option String → String
  | none => "None"
  | some s => s

/-- The report text of `_handle_last_night_sleep` for the first record. -/
def lastNightText (r : SleepRecord) : String :=
  "Last Night's Sleep Data (" ++ showStrNone r.day ++ "):\n" ++
  "Sleep Score: " ++ showIntNone r.score ++ "\n" ++
  "Sleep Efficiency: " ++ showIntNone r.efficiency ++ "%\n" ++
  "Total Sleep: " ++ showIntNone r.total ++ " seconds\n" ++
  "REM Sleep: " ++ showIntNone r.rem ++ " seconds\n" ++
  "Deep Sleep: " ++ showIntNone r.deep ++ " seconds\n" ++
  "Light Sleep: " ++ showIntNone r.light ++ " seconds\n" ++
  "Bedtime: " ++ showStrNone r.bedtime_start ++ " - " ++ showStrNone r.bedtime_end ++ "\n" ++
  "Sleep Latency: " ++ showIntNone r.latency ++ " seconds\n" ++
  "Time in Bed: " ++ showIntNone r.time_in_bed ++ " seconds"

/-- `OuraMCPServer._handle_last_night_sleep`: guarded by `if not
self.client`; every upstream failure is caught and rendered as text. The
date string and the HTTP outcome are external inputs. -/
def handle_last_night_sleep (st : ServerState) (yesterday : String)
    (resp : HttpOutcome) : String :=
  match st.client with
  | none => noClientErrorText
  | some _ =>
    match resp with
    | .failure e => "Error fetching sleep data: " ++ e
    | .success data =>
      match data.getD [] with
      | [] => "No sleep data available for " ++ yesterday ++ "."
      | latest :: _ => lastNightText latest

/-- `OuraMCPServer._handle_week_sleep`: guarded by `if not self.client`;
sorts the records by day descending (stable), then appends one line per
record and, when at least one non-null score exists, the average line. -/
def handle_week_sleep (st : ServerState) (start_date end_date : String)
    (resp : HttpOutcome) : String :=
  match st.client with
  | none => noClientErrorText
  | some _ =>
    match resp with
    | .failure e => "Error fetching sleep data: " ++ e
    | .success data =>
      match data.getD [] with
      | [] =>
        "No sleep data available for the past week (" ++ start_date ++
          " to " ++ end_date ++ ")."
      | r :: rest =>
        let sorted := sortByDayDesc (r :: rest)
        "Past Week's Sleep Scores:\n\n" ++
          String.join (sorted.map weekRecordLine) ++
          (weekAverageLine sorted).getD ""

/-! ## The FastMCP server (`src/oura_server/server.py`) -/

/-- The smithery session configuration (`ConfigSchema` in the source);
defaults as declared by the pydantic fields. -/
structure ConfigSchema where
  client_id : String
  client_secret : String
  redirect_uri : String := "http://localhost:8080/callback"
  access_token : String := ""
deriving DecidableEq

def fastConfigErrorText : String :=
  "❌ Error: Oura API credentials not configured. Please set client_id and client_secret in your session configuration."

def fastAuthErrorText : String :=
  "❌ Error: No access token found. Please complete OAuth2 authentication first."

/-- `get_auth_url` (FastMCP): every tool returns the (unchanged) session
configuration paired with its text, making the absence of config mutation
explicit. -/
def fast_get_auth_url (config : ConfigSchema) (scope state : String) :
    ConfigSchema × String :=
  if config.client_id == "" || config.client_secret == "" then
    (config, fastConfigErrorText)
  else
    (config,
      "🔗 OAuth2 Authorization URL:\n\n" ++
        bytesToStr (get_authorization_url (strBytes config.client_id)
          (strBytes config.redirect_uri) (strBytes scope) (strBytes state)) ++
        "\n\nVisit this URL to authorize the application, then use the 'exchange_code' tool with the code from the callback URL.")

def fastExchangeErrorPrefix : String := "❌ Error exchanging code for token: "

/-- `exchange_code` (FastMCP): on success the token is only echoed,
truncated to its first 20 characters; the session configuration is
returned unchanged in every branch. -/
def fast_exchange_code (config : ConfigSchema) (code : String)
    (resp : TokenResponse) : ConfigSchema × String :=
  if config.client_id == "" || config.client_secret == "" then
    (config, fastConfigErrorText)
  else if ¬(200 ≤ resp.status ∧ resp.status ≤ 299) then
    (config, fastExchangeErrorPrefix ++ httpStatusErrorText resp.status)
  else
    match resp.access_token with
    | none => (config, fastExchangeErrorPrefix ++ keyErrorText "access_token")
    | some tok =>
      match resp.expires_in with
      | none => (config, fastExchangeErrorPrefix ++ keyErrorText "expires_in")
      | some e =>
        match resp.token_type with
        | none => (config, fastExchangeErrorPrefix ++ keyErrorText "token_type")
        | some tt =>
          (config,
            "✅ Successfully authenticated with Oura Ring!\n\nAccess Token: " ++
              String.mk (tok.toList.take 20) ++ "...\nExpires in: " ++ toString e ++
              " seconds\nToken Type: " ++ tt ++
              "\n\nYou can now use this access token to make API calls to Oura.")

/-- `parse_redirect_url` (FastMCP): looks for `access_token` in the URL
fragment, else for `code` in the query, auto-exchanging a found code; the
URL is a byte string parsed with the `urllib.parse` model above. -/
def fast_parse_redirect_url (config : ConfigSchema) (url : List Nat)
    (resp : TokenResponse) : ConfigSchema × String :=
  let fromCode : ConfigSchema × String :=
    let beforeFrag := (splitFirst 35 url).1
    let params := parse_qsl (urlQuery beforeFrag)
    match params.find? (fun p => p.1 == strBytes "code") with
    | some p => fast_exchange_code config (bytesToStr p.2) resp
    | none => (config, "❌ No access token or authorization code found in URL")
  if 35 ∈ url then
    let fragment := (splitFirst 35 url).2
    let params := parse_qsl fragment
    match params.find? (fun p => p.1 == strBytes "access_token") with
    | some p =>
      let expires := (params.find? (fun q => q.1 == strBytes "expires_in")).map
        (fun q => bytesToStr q.2)
      (config,
        "✅ Access token found in URL!\n\nToken: " ++
          String.mk ((bytesToStr p.2).toList.take 20) ++ "...\nExpires: " ++
          expires.getD "unknown" ++
          " seconds\n\nYou can now use this token for API calls.")
    | none => fromCode
  else fromCode

/-- The per-record block shared by `get_sleep_last_night` and
`get_sleep_by_date` in the FastMCP variant (all fields default `'N/A'`). -/
def fastSleepText (label : String) (r : SleepRecord) : String :=
  "😴 Sleep Data - " ++ label ++ "\n\n" ++
  "Sleep Score: " ++ showIntNA r.score ++ "\n" ++
  "Sleep Efficiency: " ++ showIntNA r.efficiency ++ "%\n" ++
  "Total Sleep: " ++ showIntNA r.total ++ " seconds\n" ++
  "REM Sleep: " ++ showIntNA r.rem ++ " seconds\n" ++
  "Deep Sleep: " ++ showIntNA r.deep ++ " seconds\n" ++
  "Light Sleep: " ++ showIntNA r.light ++ " seconds\n" ++
  "Bedtime: " ++ (r.bedtime_start.getD "N/A") ++ " - " ++ (r.bedtime_end.getD "N/A") ++ "\n" ++
  "Sleep Latency: " ++ showIntNA r.latency ++ " seconds\n" ++
  "Time in Bed: " ++ showIntNA r.time_in_bed ++ " seconds"

/-- `get_sleep_last_night` (FastMCP): guarded by `if not config.access_token`. -/
def fast_get_sleep_last_night (config : ConfigSchema) (yesterday : String)
    (resp : HttpOutcome) : ConfigSchema × String :=
  if config.access_token == "" then (config, fastAuthErrorText)
  else
    match resp with
    | .failure e => (config, "❌ Error fetching sleep data: " ++ e)
    | .success data =>
      match data.getD [] with
      | [] => (config, "❌ No sleep data found for " ++ yesterday)
      | sleep :: _ => (config, fastSleepText yesterday sleep)

/-- `get_sleep_last_week` (FastMCP): same guard; sorts day-descending and
appends the average line when a non-null score exists. -/
def fast_get_sleep_last_week (config : ConfigSchema) (start_date end_date : String)
    (resp : HttpOutcome) : ConfigSchema × String :=
  if config.access_token == "" then (config, fastAuthErrorText)
  else
    match resp with
    | .failure e => (config, "❌ Error fetching sleep data: " ++ e)
    | .success data =>
      match data.getD [] with
      | [] =>
        (config, "❌ No sleep data found for " ++ start_date ++ " to " ++ end_date)
      | r :: rest =>
        let sorted := sortByDayDesc (r :: rest)
        (config,
          "😴 Sleep Data - Past Week (" ++ start_date ++ " to " ++ end_date ++ ")\n\n" ++
            String.join (sorted.map weekRecordLine) ++
            (weekAverageLine sorted).getD "")

/-- `get_sleep_by_date` (FastMCP): same guard, single-date report. -/
def fast_get_sleep_by_date (config : ConfigSchema) (date : String)
    (resp : HttpOutcome) : ConfigSchema × String :=
  if config.access_token == "" then (config, fastAuthErrorText)
  else
    match resp with
    | .failure e => (config, "❌ Error fetching sleep data: " ++ e)
    | .success data =>
      match data.getD [] with
      | [] => (config, "❌ No sleep data found for " ++ date)
      | sleep :: _ => (config, fastSleepText date sleep)

/-! ## Token store (spec §4.2; no implementation exists in the repository) -/

/-- Modelled from the spec: the Token record of §3 — the repository's
source contains no token-store implementation (only the spec and the demo
script mention persisting tokens), so the store is modelled from the
spec's words. `expires_at = obtained_at + expires_in` is the derived
attribute. -/
structure Token where
  access_token : String
  refresh_token : Option String := none
  expires_in : Int
  obtained_at : Int
deriving DecidableEq

/-- Modelled from the spec: the on-disk record — "the current token plus
computed expires_at". -/
structure StoredToken where
  access_token : String
  expires_in : Int
  expires_at : Int
deriving DecidableEq

/-- Modelled from the spec: a file either holds a complete serialized
record or is mid-write (an incomplete byte count). -/
inductive FileContent where
  | complete (rec : StoredToken)
  | incomplete (writtenBytes : Nat)
deriving DecidableEq

/-- Modelled from the spec: the store's directory — the well-known token
file plus the temporary file used by write-temp-then-rename. -/
structure TokenFS where
  mainFile : Option FileContent := none
  tempFile : Option FileContent := none
deriving DecidableEq

/-- Modelled from the spec: the record `save` serializes, with
`expires_at` computed from the current time. -/
def storedRecord (t : Token) (now : Int) : StoredToken :=
  { access_token := t.access_token
    expires_in := t.expires_in
    expires_at := now + t.expires_in }

/-- Modelled from the spec: `save(token)` via write-temp-then-rename. The
list holds every intermediate filesystem state a concurrent reader could
observe: temp mid-write, temp complete, and after the atomic rename. -/
def tokenStore_save_steps (fs : TokenFS) (t : Token) (now : Int) : List TokenFS :=
  [{ fs with tempFile := some (.incomplete 0) },
   { fs with tempFile := some (.complete (storedRecord t now)) },
   { mainFile := some (.complete (storedRecord t now)), tempFile := none }]

/-- Modelled from the spec: the filesystem after `save` completes. -/
def tokenStore_save (fs : TokenFS) (t : Token) (now : Int) : TokenFS :=
  { mainFile := some (.complete (storedRecord t now)), tempFile := none }

/-- Modelled from the spec: `load()` returns the token from the well-known
file if present and parsable, else none; `obtained_at` is recovered from
the stored `expires_at`. -/
def tokenStore_load (fs : TokenFS) : Option Token :=
  match fs.mainFile with
  | some (.complete rec) =>
    some { access_token := rec.access_token
           refresh_token := none
           expires_in := rec.expires_in
           obtained_at := rec.expires_at - rec.expires_in }
  | _ => none

/-! ## Properties of the descending stable sort -/

theorem filter_day_orderedInsert (d : String) (a : SleepRecord) :
    ∀ l : List SleepRecord,
      (List.orderedInsert daySortRel a l).filter (fun r => dayKey r == d) =
        if dayKey a == d then a :: l.filter (fun r => dayKey r == d)
        else l.filter (fun r => dayKey r == d) := by
  intro l
  induction l with
  | nil =>
    by_cases hpa : dayKey a == d <;>
      simp [List.orderedInsert, List.filter, hpa]
  | cons b t ih =>
    by_cases hab : daySortRel a b
    · rw [List.orderedInsert, if_pos hab]
      by_cases hpa : dayKey a == d <;>
        simp [List.filter_cons, hpa]
    · rw [List.orderedInsert, if_neg hab]
      have hlt : dayKey a < dayKey b := lt_of_not_le hab
      by_cases hpa : dayKey a == d
      · have hpb : (dayKey b == d) = false := by
          simp only [beq_iff_eq] at hpa ⊢
          simp only [beq_eq_false_iff_ne, ne_eq]
          intro h
          exact absurd (hpa ▸ h ▸ hlt) (lt_irrefl _)
        simp [List.filter_cons, hpb, ih, hpa]
      · simp only [Bool.not_eq_true] at hpa
        simp [List.filter_cons, ih, hpa]

theorem filter_day_sortByDayDesc (d : String) :
    ∀ rs : List SleepRecord,
      (sortByDayDesc rs).filter (fun r => dayKey r == d) =
        rs.filter (fun r => dayKey r == d) := by
  intro rs
  induction rs with
  | nil => rfl
  | cons a t ih =>
    show (List.orderedInsert daySortRel a (List.insertionSort daySortRel t)).filter _ = _
    rw [filter_day_orderedInsert]
    by_cases hpa : dayKey a == d
    · simp only [sortByDayDesc] at ih
      simp [List.filter_cons, hpa, ih]
    · simp only [Bool.not_eq_true] at hpa
      simp only [sortByDayDesc] at ih
      simp [List.filter_cons, hpa, ih]

/--
C4. `sleep_records.sort(key=lambda x: x.get("day", ""), reverse=True)` in
`_handle_week_sleep` / `get_sleep_last_week`: the sorted list is a
permutation of the response records, is ordered by the `day` field in
descending order, and is stable — records with equal `day` keep their
original response order (their filtered subsequences coincide).
-/
theorem week_sort_desc_stable (rs : List SleepRecord) :
    (sortByDayDesc rs).Perm rs ∧
    List.Pairwise daySortRel (sortByDayDesc rs) ∧
    (∀ d : String, (sortByDayDesc rs).filter (fun r => dayKey r == d) =
      rs.filter (fun r => dayKey r == d)) :=
  ⟨List.perm_insertionSort daySortRel rs,
   List.sorted_insertionSort daySortRel rs,
   fun d => filter_day_sortByDayDesc d rs⟩

/-! ## Properties of the rounded average -/

/-- The half-even rounding of `a / n` is within half a unit of the true
quotient: `2 * |n * round - a| ≤ n`. -/
theorem roundHalfEvenDiv_close (a : Int) (n : Nat) (hn : 0 < n) :
    2 * |(n : Int) * roundHalfEvenDiv a n - a| ≤ n := by
  have hn' : (0 : Int) < n := by exact_mod_cast hn
  have hediv := Int.ediv_add_emod a n
  have h0 : 0 ≤ a % (n : Int) := Int.emod_nonneg a (by omega)
  have h1 : a % (n : Int) < n := Int.emod_lt_of_pos a hn'
  have hx : (n : Int) * (a / (n : Int) + 1) = (n : Int) * (a / (n : Int)) + n := by
    ring
  unfold roundHalfEvenDiv
  split_ifs with hc1 hc2 hc3
  · rcases abs_cases ((n : Int) * (a / (n : Int)) - a) with ⟨he, _⟩ | ⟨he, _⟩ <;>
      rw [he] <;> linarith
  · rcases abs_cases ((n : Int) * (a / (n : Int) + 1) - a) with ⟨he, _⟩ | ⟨he, _⟩ <;>
      rw [he] <;> linarith
  · rcases abs_cases ((n : Int) * (a / (n : Int)) - a) with ⟨he, _⟩ | ⟨he, _⟩ <;>
      rw [he] <;> linarith
  · rcases abs_cases ((n : Int) * (a / (n : Int) + 1) - a) with ⟨he, _⟩ | ⟨he, _⟩ <;>
      rw [he] <;> linarith

/-- A record carrying only a day and a score, for concrete examples. -/
def mkScored (d : String) (s : Int) : SleepRecord :=
  { day := some d, score := some s }

/-- A record with a null/missing score, for concrete examples. -/
def mkUnscored (d : String) : SleepRecord := { day := some d }

/--
C3. The average in `_handle_week_sleep` / `get_sleep_last_week`: the
optional average line exists exactly when some record has a non-null
score; records with null score are excluded (`sleepScores` drops them and
keeps the rest); the printed value is `sum(scores)/len(scores)` rendered
to one decimal place (its integer-tenths value is within half a tenth of
the true mean); and for records with scores `[10, 20, 30]` the line reads
`Average Sleep Score: 20.0`.
-/
theorem week_average_score (l : List SleepRecord) (r : SleepRecord) (v : Int) :
    (weekAverageLine l = none ↔ sleepScores l = []) ∧
    (r.score = none → sleepScores (r :: l) = sleepScores l) ∧
    (r.score = some v → sleepScores (r :: l) = v :: sleepScores l) ∧
    (sleepScores l ≠ [] →
      weekAverageLine l =
        some ("\nAverage Sleep Score: " ++ formatTenths
          (roundHalfEvenDiv (10 * (sleepScores l).sum) (sleepScores l).length)) ∧
      2 * |((sleepScores l).length : Int) *
            roundHalfEvenDiv (10 * (sleepScores l).sum) (sleepScores l).length -
          10 * (sleepScores l).sum| ≤ (sleepScores l).length) ∧
    weekAverageLine
        [mkScored "2025-01-03" 10, mkScored "2025-01-02" 20, mkScored "2025-01-01" 30] =
      some "\nAverage Sleep Score: 20.0" := by
  refine ⟨?_, ?_, ?_, ?_, by decide⟩
  · constructor
    · intro h
      by_contra hne
      simp [weekAverageLine, List.isEmpty_iff, hne] at h
    · intro h
      simp [weekAverageLine, List.isEmpty_iff, h]
  · intro h
    simp [sleepScores, List.filterMap_cons, h]
  · intro h
    simp [sleepScores, List.filterMap_cons, h]
  · intro hne
    have hlen : 0 < (sleepScores l).length := List.length_pos.mpr hne
    constructor
    · simp [weekAverageLine, List.isEmpty_iff, hne, formatAvgScore]
    · exact roundHalfEvenDiv_close (10 * (sleepScores l).sum) _ hlen

/-- Witness for C3: the conditional conjuncts discharged at a concrete
list with scores `[10, 20, 30]` and a score-less record. -/
theorem week_average_score_witness :
    (sleepScores [mkUnscored "2025-01-04", mkScored "2025-01-03" 10,
        mkScored "2025-01-02" 20, mkScored "2025-01-01" 30] =
      sleepScores [mkScored "2025-01-03" 10, mkScored "2025-01-02" 20,
        mkScored "2025-01-01" 30]) ∧
    (weekAverageLine [mkScored "2025-01-03" 10, mkScored "2025-01-02" 20,
        mkScored "2025-01-01" 30] =
      some ("\nAverage Sleep Score: " ++ formatTenths
        (roundHalfEvenDiv
          (10 * (sleepScores [mkScored "2025-01-03" 10, mkScored "2025-01-02" 20,
            mkScored "2025-01-01" 30]).sum)
          (sleepScores [mkScored "2025-01-03" 10, mkScored "2025-01-02" 20,
            mkScored "2025-01-01" 30]).length))) :=
  ⟨((week_average_score
      [mkScored "2025-01-03" 10, mkScored "2025-01-02" 20, mkScored "2025-01-01" 30]
      (mkUnscored "2025-01-04") 0).2.1 (by decide)),
   ((week_average_score
      [mkScored "2025-01-03" 10, mkScored "2025-01-02" 20, mkScored "2025-01-01" 30]
      (mkUnscored "2025-01-04") 0).2.2.2.1 (by decide)).1⟩

/--
C2 counterexample. The `oura_set_token` tool builds
`OuraClient(access_token)` from any argument, including the empty string:
after `handle_set_token initialState ""` a sleep client with an empty
access token exists, and a sleep-retrieval call in that state does not
return the authentication-required message — it proceeds to the API (here
the upstream rejection is what comes back). This falsifies "no sleep
client is ever constructed or used without a non-empty access token".
-/
theorem set_token_empty_client_counterexample :
    (handle_set_token initialState "").state.client = some { access_token := "" } ∧
    handle_last_night_sleep (handle_set_token initialState "").state "2025-06-01"
        (.failure "401 Unauthorized") ≠ noClientErrorText ∧
    handle_last_night_sleep (handle_set_token initialState "").state "2025-06-01"
        (.failure "401 Unauthorized") =
      "Error fetching sleep data: 401 Unauthorized" := by
  refine ⟨rfl, ?_, rfl⟩
  decide

/--
C2 amended. Every sleep-retrieval tool invoked while no client object
exists (stdio variant) or while the session's access token is empty
(FastMCP variant) returns the authentication-required message, and the
handlers are total functions (no unhandled exception); however, the
set-token tool can install a client whose access token is empty, so the
"client exists" guard of the stdio variant is weaker than "a non-empty
access token exists".
-/
theorem sleep_tools_auth_guard (st : ServerState) (cfg : ConfigSchema)
    (y s e d : String) (resp : HttpOutcome) :
    (st.client = none →
      handle_last_night_sleep st y resp = noClientErrorText ∧
      handle_week_sleep st s e resp = noClientErrorText) ∧
    (cfg.access_token = "" →
      (fast_get_sleep_last_night cfg y resp).2 = fastAuthErrorText ∧
      (fast_get_sleep_last_week cfg s e resp).2 = fastAuthErrorText ∧
      (fast_get_sleep_by_date cfg d resp).2 = fastAuthErrorText) := by
  constructor
  · intro h
    constructor
    · simp [handle_last_night_sleep, h]
    · simp [handle_week_sleep, h]
  · intro h
    refine ⟨?_, ?_, ?_⟩ <;>
      simp [fast_get_sleep_last_night, fast_get_sleep_last_week,
        fast_get_sleep_by_date, h]

/-- Witness for C2 (amended) at the initial state and an empty-token
session configuration. -/
theorem sleep_tools_auth_guard_witness :
    handle_last_night_sleep initialState "2025-06-01" (.success none) =
      noClientErrorText ∧
    (fast_get_sleep_by_date { client_id := "id", client_secret := "secret" }
        "2025-06-01" (.success none)).2 = fastAuthErrorText :=
  ⟨((sleep_tools_auth_guard initialState
      { client_id := "id", client_secret := "secret" } "2025-06-01" "a" "b" "c"
      (.success none)).1 rfl).1,
   ((sleep_tools_auth_guard initialState
      { client_id := "id", client_secret := "secret" } "2025-06-01" "a" "b" "c"
      (.success none)).2 rfl).2.2⟩

/--
C6 counterexample. `_handle_set_token` issues no HTTP request at all — the
token is not validated before being installed — and reports success for
any argument; nothing is persisted to a store (no token store exists in
the repository). This falsifies "validates the token by making one
lightweight authenticated request before persisting it".
-/
theorem set_token_no_validation_counterexample :
    (handle_set_token initialState "definitely-not-a-valid-token").requests = [] ∧
    (handle_set_token initialState "definitely-not-a-valid-token").text =
      "Access token set successfully. You can now use the sleep data tools." ∧
    (handle_set_token initialState "definitely-not-a-valid-token").state.client =
      some { access_token := "definitely-not-a-valid-token" } :=
  ⟨rfl, rfl, rfl⟩

/--
C6 amended. For every access-token argument and state, the set-token tool
makes no validation request, unconditionally installs
`OuraClient(access_token)` in the in-memory session (it persists nothing
to disk), and reports success.
-/
theorem set_token_unconditional (st : ServerState) (tok : String) :
    (handle_set_token st tok).requests = [] ∧
    (handle_set_token st tok).state =
      { st with client := some { access_token := tok } } ∧
    (handle_set_token st tok).text =
      "Access token set successfully. You can now use the sleep data tools." :=
  ⟨rfl, rfl, rfl⟩

/--
C7. `_handle_exchange_code` / `exchange_code`: when the provider answers
with a non-2xx status, or with a 2xx body lacking `access_token`, both
variants catch the exception (`raise_for_status` / the `KeyError`) and
return an error text carrying the upstream failure (status code, or the
missing key); the stdio server's state is left unchanged in these branches
and no exception escapes (the handlers are total functions).
-/
theorem exchange_code_error_handling (st : ServerState) (a : OuraAuth)
    (code : String) (cfg : ConfigSchema) (resp : TokenResponse)
    (hauth : st.auth = some a)
    (hcid : cfg.client_id ≠ "") (hcs : cfg.client_secret ≠ "") :
    (¬(200 ≤ resp.status ∧ resp.status ≤ 299) →
      (handle_exchange_code st code resp).text =
        exchangeErrorPrefix ++ httpStatusErrorText resp.status ∧
      (handle_exchange_code st code resp).state = st ∧
      (fast_exchange_code cfg code resp).2 =
        fastExchangeErrorPrefix ++ httpStatusErrorText resp.status) ∧
    ((200 ≤ resp.status ∧ resp.status ≤ 299) → resp.access_token = none →
      (handle_exchange_code st code resp).text =
        exchangeErrorPrefix ++ keyErrorText "access_token" ∧
      (handle_exchange_code st code resp).state = st ∧
      (fast_exchange_code cfg code resp).2 =
        fastExchangeErrorPrefix ++ keyErrorText "access_token") := by
  constructor
  · intro hbad
    refine ⟨?_, ?_, ?_⟩ <;>
      simp [handle_exchange_code, fast_exchange_code, hauth, hbad, hcid, hcs]
  · intro hok hnotok
    refine ⟨?_, ?_, ?_⟩ <;>
      simp [handle_exchange_code, fast_exchange_code, hauth, hok, hnotok,
        hcid, hcs]

/-- Witness for C7 at a concrete 400 response and a concrete 200 response
without `access_token`. -/
theorem exchange_code_error_handling_witness :
    (handle_exchange_code
        (ServerState.mk (some (OuraAuth.mk "i" "s" "r")) none) "thecode"
        (TokenResponse.mk 400 none none none)).text =
      exchangeErrorPrefix ++ httpStatusErrorText 400 ∧
    (handle_exchange_code
        (ServerState.mk (some (OuraAuth.mk "i" "s" "r")) none) "thecode"
        (TokenResponse.mk 200 none none none)).text =
      exchangeErrorPrefix ++ keyErrorText "access_token" :=
  ⟨((exchange_code_error_handling
      (ServerState.mk (some (OuraAuth.mk "i" "s" "r")) none)
      (OuraAuth.mk "i" "s" "r") "thecode"
      (ConfigSchema.mk "ci" "cs" "r" "") (TokenResponse.mk 400 none none none)
      rfl (by decide) (by decide)).1 (by decide)).1,
   ((exchange_code_error_handling
      (ServerState.mk (some (OuraAuth.mk "i" "s" "r")) none)
      (OuraAuth.mk "i" "s" "r") "thecode"
      (ConfigSchema.mk "ci" "cs" "r" "") (TokenResponse.mk 200 none none none)
      rfl (by decide) (by decide)).2 (by decide) rfl).1⟩

/--
C8. `_handle_week_sleep` / `get_sleep_last_week` on an empty upstream data
set (missing `data` field or empty list): the tool returns the "no data"
message naming the queried range, and the output contains no
`Average Sleep Score` line.
-/
theorem week_sleep_no_data (st : ServerState) (c : OuraClient)
    (cfg : ConfigSchema) (s e : String)
    (hc : st.client = some c) (ht : cfg.access_token ≠ "") :
    handle_week_sleep st s e (.success none) =
      "No sleep data available for the past week (" ++ s ++ " to " ++ e ++ ")." ∧
    handle_week_sleep st s e (.success (some [])) =
      "No sleep data available for the past week (" ++ s ++ " to " ++ e ++ ")." ∧
    (fast_get_sleep_last_week cfg s e (.success (some []))).2 =
      "❌ No sleep data found for " ++ s ++ " to " ++ e ∧
    ¬ ("Average Sleep Score".toList <:+:
        (handle_week_sleep st "2025-01-01" "2025-01-07" (.success none)).toList) := by
  refine ⟨?_, ?_, ?_, ?_⟩
  · simp [handle_week_sleep, hc]
  · simp [handle_week_sleep, hc]
  · simp [fast_get_sleep_last_week, ht]
  · have hout : handle_week_sleep st "2025-01-01" "2025-01-07" (.success none) =
        "No sleep data available for the past week (2025-01-01 to 2025-01-07)." := by
      simp [handle_week_sleep, hc]
    rw [hout]
    decide

/-- Witness for C8 at the state produced by `oura_set_token` and a
concrete session configuration. -/
theorem week_sleep_no_data_witness :
    handle_week_sleep (handle_set_token initialState "tok").state
        "2025-01-01" "2025-01-07" (.success none) =
      "No sleep data available for the past week (2025-01-01 to 2025-01-07)." ∧
    (fast_get_sleep_last_week
        (ConfigSchema.mk "i" "s" "http://localhost:8080/callback" "tok")
        "2025-01-01" "2025-01-07" (.success (some []))).2 =
      "❌ No sleep data found for 2025-01-01 to 2025-01-07" := by
  have h := week_sleep_no_data (handle_set_token initialState "tok").state
    (OuraClient.mk "tok")
    (ConfigSchema.mk "i" "s" "http://localhost:8080/callback" "tok")
    "2025-01-01" "2025-01-07" rfl (by decide)
  exact ⟨h.1, h.2.2.1⟩

/--
C9. `_handle_auth` / `get_auth_url` with missing credentials: when
`OURA_CLIENT_ID` or `OURA_CLIENT_SECRET` is unset or empty (stdio) or the
session's `client_id`/`client_secret` is empty (FastMCP), the tool
returns the configuration-error message in a single step — no retry, no
request, state and configuration unchanged — and no authorization URL is
produced (the error texts contain no URL).
-/
theorem auth_missing_credentials (env : Env) (st : ServerState)
    (cfg : ConfigSchema) (scope state fscope fstate : String)
    (hnone : st.auth = none)
    (hmiss : optFalsy env.OURA_CLIENT_ID || optFalsy env.OURA_CLIENT_SECRET)
    (hfmiss : cfg.client_id = "" ∨ cfg.client_secret = "") :
    (handle_auth env st scope state).text = configErrorText ∧
    (handle_auth env st scope state).state = st ∧
    (handle_auth env st scope state).requests = [] ∧
    (fast_get_auth_url cfg fscope fstate).2 = fastConfigErrorText ∧
    (fast_get_auth_url cfg fscope fstate).1 = cfg ∧
    ¬ ("cloud.ouraring.com".toList <:+: configErrorText.toList) ∧
    ¬ ("cloud.ouraring.com".toList <:+: fastConfigErrorText.toList) := by
  have hfast : (fast_get_auth_url cfg fscope fstate) = (cfg, fastConfigErrorText) := by
    rcases hfmiss with h | h <;> simp [fast_get_auth_url, h]
  refine ⟨?_, ?_, ?_, by rw [hfast], by rw [hfast], by decide, by decide⟩ <;>
    simp [handle_auth, hnone, hmiss]

/-- Witness for C9: an environment with no credentials and a session
configuration with an empty client id. -/
theorem auth_missing_credentials_witness :
    (handle_auth {} initialState "personal daily" "stateX").text =
      configErrorText ∧
    (fast_get_auth_url { client_id := "", client_secret := "sec" }
        "personal daily" "stateX").2 = fastConfigErrorText := by
  have h := auth_missing_credentials {} initialState
    { client_id := "", client_secret := "sec" } "personal daily" "stateX"
    "personal daily" "stateX" rfl (by decide) (Or.inl rfl)
  exact ⟨h.1, h.2.2.2.1⟩

theorem fast_exchange_code_fst (cfg : ConfigSchema) (code : String)
    (resp : TokenResponse) : (fast_exchange_code cfg code resp).1 = cfg := by
  unfold fast_exchange_code
  repeat' split
  all_goals rfl

theorem fast_parse_redirect_url_fst (cfg : ConfigSchema) (url : List Nat)
    (resp : TokenResponse) : (fast_parse_redirect_url cfg url resp).1 = cfg := by
  unfold fast_parse_redirect_url
  by_cases h35 : 35 ∈ url
  · rw [if_pos h35]
    cases hfind : List.find? (fun p => p.1 == strBytes "access_token")
        (parse_qsl ((splitFirst 35 url).2)) with
    | some p => simp [hfind]
    | none =>
      cases hfind2 : List.find? (fun p => p.1 == strBytes "code")
          (parse_qsl (urlQuery ((splitFirst 35 url).1))) with
      | some q => simp [hfind, hfind2, fast_exchange_code_fst]
      | none => simp [hfind, hfind2]
  · rw [if_neg h35]
    cases hfind2 : List.find? (fun p => p.1 == strBytes "code")
        (parse_qsl (urlQuery ((splitFirst 35 url).1))) with
    | some q => simp [hfind2, fast_exchange_code_fst]
    | none => simp [hfind2]

/--
C10. In the FastMCP variant a successful `exchange_code` (or a
`parse_redirect_url` auto-exchange) leaves the session configuration
unchanged: the obtained token is only echoed, truncated to its first 20
characters, in the returned text and is never stored; consequently a
subsequent sleep-data call still returns the authentication-required
message whenever `access_token` was empty in the session configuration,
and succeeds (here: returns the sleep report) when it was set beforehand.
-/
theorem fast_exchange_no_store (cfg : ConfigSchema) (code y : String)
    (url : List Nat) (resp : TokenResponse) (resp2 : HttpOutcome)
    (tok : String) (e : Int) (tt : String) :
    (fast_exchange_code cfg code resp).1 = cfg ∧
    (fast_parse_redirect_url cfg url resp).1 = cfg ∧
    (resp.access_token = some tok → resp.expires_in = some e →
      resp.token_type = some tt → 200 ≤ resp.status → resp.status ≤ 299 →
      cfg.client_id ≠ "" → cfg.client_secret ≠ "" →
      (fast_exchange_code cfg code resp).2 =
        "✅ Successfully authenticated with Oura Ring!\n\nAccess Token: " ++
          String.mk (tok.toList.take 20) ++ "...\nExpires in: " ++ toString e ++
          " seconds\nToken Type: " ++ tt ++
          "\n\nYou can now use this access token to make API calls to Oura.") ∧
    (cfg.access_token = "" →
      (fast_get_sleep_last_night (fast_exchange_code cfg code resp).1 y resp2).2 =
        fastAuthErrorText) ∧
    (fast_get_sleep_last_night
        (ConfigSchema.mk "i" "s" "http://localhost:8080/callback" "tok123")
        "2025-06-01" (.success (some [mkScored "2025-05-31" 80]))).2 ≠
      fastAuthErrorText := by
  refine ⟨fast_exchange_code_fst cfg code resp,
    fast_parse_redirect_url_fst cfg url resp, ?_, ?_, by decide⟩
  · intro h1 h2 h3 h4 h5 h6 h7
    simp [fast_exchange_code, h1, h2, h3, h4, h5, h6, h7]
  · intro hempty
    rw [fast_exchange_code_fst cfg code resp]
    simp [fast_get_sleep_last_night, hempty]

/-- Witness for C10: a concrete successful exchange (status 200, full
body) followed by a sleep call with an empty configured token. -/
theorem fast_exchange_no_store_witness :
    (fast_exchange_code (ConfigSchema.mk "i" "s" "r" "") "thecode"
        (TokenResponse.mk 200 (some "secretsecretsecretsecret") (some 86400)
          (some "Bearer"))).2 =
      "✅ Successfully authenticated with Oura Ring!\n\nAccess Token: " ++
        String.mk ("secretsecretsecretsecret".toList.take 20) ++
        "...\nExpires in: " ++ toString (86400 : Int) ++
        " seconds\nToken Type: " ++ "Bearer" ++
        "\n\nYou can now use this access token to make API calls to Oura." ∧
    (fast_get_sleep_last_night
        (fast_exchange_code (ConfigSchema.mk "i" "s" "r" "") "thecode"
          (TokenResponse.mk 200 (some "secretsecretsecretsecret") (some 86400)
            (some "Bearer"))).1
        "2025-06-01" (.success (some [mkScored "2025-05-31" 80]))).2 =
      fastAuthErrorText :=
  ⟨(fast_exchange_no_store (ConfigSchema.mk "i" "s" "r" "") "thecode" "2025-06-01"
      [] (TokenResponse.mk 200 (some "secretsecretsecretsecret") (some 86400)
        (some "Bearer")) (.success (some [mkScored "2025-05-31" 80]))
      "secretsecretsecretsecret" 86400 "Bearer").2.2.1
      rfl rfl rfl (by decide) (by decide) (by decide) (by decide),
   (fast_exchange_no_store (ConfigSchema.mk "i" "s" "r" "") "thecode" "2025-06-01"
      [] (TokenResponse.mk 200 (some "secretsecretsecretsecret") (some 86400)
        (some "Bearer")) (.success (some [mkScored "2025-05-31" 80]))
      "secretsecretsecretsecret" 86400 "Bearer").2.2.2.1 rfl⟩

/--
C5 (spec-modelled: the repository has no token-store implementation; the
store is modelled from spec §4.2). `save` then `load` round-trips the
token's `access_token` and `expires_in` exactly, with `obtained_at`
recovered from the recomputed `expires_at = now + expires_in`; `save`
proceeds by write-temp-then-rename, so at every intermediate filesystem
state the well-known file holds either the old content or the complete new
record — never a partial write.
-/
theorem token_store_roundtrip_atomic (fs : TokenFS) (t : Token) (now : Int) :
    tokenStore_load (tokenStore_save fs t now) =
      some { access_token := t.access_token, refresh_token := none,
             expires_in := t.expires_in, obtained_at := now } ∧
    (tokenStore_save fs t now).mainFile =
      some (.complete (storedRecord t now)) ∧
    (storedRecord t now).expires_at = now + t.expires_in ∧
    (∀ fs' ∈ tokenStore_save_steps fs t now,
      fs'.mainFile = fs.mainFile ∨
        fs'.mainFile = some (.complete (storedRecord t now))) ∧
    (tokenStore_save_steps fs t now).getLast? = some (tokenStore_save fs t now) := by
  refine ⟨?_, rfl, rfl, ?_, rfl⟩
  · simp [tokenStore_load, tokenStore_save, storedRecord]
  · intro fs' h
    simp only [tokenStore_save_steps, List.mem_cons, List.not_mem_nil,
      or_false] at h
    rcases h with rfl | rfl | rfl <;> simp

/-- Witness for C5 at a concrete token, clock value and empty filesystem:
the round trip and the visibility of the first intermediate save state. -/
theorem token_store_roundtrip_atomic_witness :
    tokenStore_load (tokenStore_save {} (Token.mk "tok" none 3600 0) 5) =
      some (Token.mk "tok" none 3600 5) ∧
    ((TokenFS.mk none (some (.incomplete 0))).mainFile =
        (({} : TokenFS)).mainFile ∨
      (TokenFS.mk none (some (.incomplete 0))).mainFile =
        some (.complete (storedRecord (Token.mk "tok" none 3600 0) 5))) :=
  ⟨(token_store_roundtrip_atomic {} (Token.mk "tok" none 3600 0) 5).1,
   (token_store_roundtrip_atomic {} (Token.mk "tok" none 3600 0) 5).2.2.2.1
     (TokenFS.mk none (some (.incomplete 0)))
     (by simp [tokenStore_save_steps])⟩
